import Mathlib

/-!
Verification of the AI-Stylus image-studio service layer.

The service layer lives in two (near-duplicated) files,
`src/services/geminiService.ts` and an unnamed module, plus the
orchestration flow in `src/App.tsx`.  The definitions below embed the
request-building, response-extraction, error-classification and
orchestration logic of those files.  Network effects are abstracted:
the outcome of each upstream call is passed in as an explicit
`Except` parameter, and the pure request payloads the code builds are
computed exactly as the source builds them.
-/

namespace AIStylus

/-- JavaScript string truthiness for an optional string value:
`null`/`undefined` and the empty string are falsy. -/
def truthy : Option String → Bool
  | none => false
  | some s => !s.isEmpty

/-- Boolean prefix test on char lists (`a` begins `b`). -/
def beginsWith : List Char → List Char → Bool
  | [], _ => true
  | _ :: _, [] => false
  | a :: as, b :: bs => a == b && beginsWith as bs

/-- Scan of all suffixes: does `sub` occur contiguously in the list? -/
def containsSubAux (sub : List Char) : List Char → Bool
  | [] => sub.isEmpty
  | c :: t => beginsWith sub (c :: t) || containsSubAux sub t

/-- Substring containment on strings, the semantics of JavaScript
`String.prototype.includes`. -/
def containsSub (s sub : String) : Bool :=
  containsSubAux sub.toList s.toList

/-- Character-wise lowercasing, the semantics of JavaScript
`String.prototype.toLowerCase` on the ASCII alphabet the classifier
matches against. -/
def jsToLowerCase (s : String) : String :=
  List.asString (s.toList.map Char.toLower)

/-- Prefix test on strings, the semantics of JavaScript
`String.prototype.startsWith`. -/
def jsStartsWith (s pre : String) : Bool :=
  beginsWith pre.toList s.toList

/-- JavaScript `String.prototype.split` with a one-character separator,
on the char-list view of the string.  `jsSplitChar sep l` never returns
an empty list, and splitting the empty string yields `[[]]`, exactly as
in JavaScript. -/
def jsSplitChar (sep : Char) : List Char → List (List Char)
  | [] => [[]]
  | c :: rest =>
    if c = sep then [] :: jsSplitChar sep rest
    else
      match jsSplitChar sep rest with
      | [] => [[c]]
      | p :: ps => (c :: p) :: ps

/-- The record returned by `getMimeTypeAndData`.  In the source both
fields can be JavaScript `undefined` (the code never raises on a
malformed input), embedded here as `none`. -/
structure MimeData where
  mimeType : Option String
  data : Option String
  deriving DecidableEq

/-- Embeds `getMimeTypeAndData` (both service files define it
identically):
`const [meta, data] = base64.split(','); const mimeType =
meta.split(';')[0].split(':')[1]; return { mimeType, data };`
Out-of-range indexing yields `undefined` (`none`), never an error. -/
def getMimeTypeAndData (base64 : String) : MimeData :=
  let pieces := jsSplitChar ',' base64.toList
  let meta := pieces.headD []
  let data := pieces[1]?
  let mimeType := (jsSplitChar ':' ((jsSplitChar ';' meta).headD []))[1]?
  { mimeType := mimeType.map List.asString, data := data.map List.asString }

/-- A request content part: either a text fragment or inline image
data (whose fields may be `undefined` when the decoder was fed a
malformed data URI). -/
inductive Part where
  | text (s : String)
  | inlineData (mimeType : Option String) (data : Option String)
  deriving DecidableEq

/-- Label pushed before the subject image in `analyzeIdea`. -/
def rawImageLabel : String := "This is the RAW IMAGE (the subject):"

/-- Label pushed before the style image in `analyzeIdea`. -/
def styleImageLabel : String :=
  "This is the STYLE IMAGE (the reference for aesthetics):"

/-- The fixed system instruction of `analyzeIdea` (initial mode). -/
def baseSystemInstruction : String :=
  "You are a master prompt creator for an AI image generator. Your task is to synthesize user inputs into a single, detailed, and evocative prompt. The user might write in simple or imperfect English; your goal is to understand their core intent.\n\n**Rules:**\n1.  **Analyze all inputs:** Consider the raw image (the subject), the style image (the aesthetic reference), and the user\x27s text prompt (if provided).\n2.  **If no text is provided:** Infer the goal from the combination of the raw and style images. For example, if the raw image is a person and the style image is a watercolor painting, the goal is likely to render the person in a watercolor style.\n3.  **Combine concepts:** Merge the elements into a cohesive vision. The raw image is the primary subject to be modified. The style image dictates the artistic direction (e.g., mood, color, texture).\n4.  **Output only the prompt:** Do not add any extra explanations, greetings, or conversational text. Your entire output should be the final, usable prompt."

/-- The block appended to the system instruction in enhancement mode. -/
def enhancementModeBlock : String :=
  "\n**Enhancement Mode:**\nYou are now refining a previous attempt.\n- The user was shown an image generated from the \x27PREVIOUS PROMPT\x27.\n- They have provided an \x27EDIT SUGGESTION\x27 to improve it.\n- Your task is to intelligently modify the \x27PREVIOUS PROMPT\x27 based on the \x27EDIT SUGGESTION\x27 to create a new, superior prompt. Do not just tack on the suggestion; integrate it thoughtfully. Refer back to the original images and goal if necessary."

/-- The request payload `analyzeIdea` assembles before calling the
model: the ordered parts and the system instruction. -/
structure PromptRequest where
  parts : List Part
  systemInstruction : String
  deriving DecidableEq

/-- Embeds the request assembly of `analyzeIdea` in the unnamed
service module (`src/unnamed/part_000`, lines 79-124): optional
subject image with label, optional style image with label, the
enhancement-mode gate `previousPrompt && editSuggestion` (JavaScript
truthiness on both), and the trailing text part. -/
def analyzeIdeaRequest (rawImageBase64 styleImageBase64 : Option String)
    (userPrompt : String) (previousPrompt editSuggestion : Option String) :
    PromptRequest :=
  let systemInstruction := baseSystemInstruction
  let parts : List Part := []
  let textContent := "User\x27s goal: \"" ++ userPrompt ++ "\"\n"
  let parts := if truthy rawImageBase64 then
      parts ++ [Part.text rawImageLabel,
        Part.inlineData (getMimeTypeAndData (rawImageBase64.getD "")).mimeType
          (getMimeTypeAndData (rawImageBase64.getD "")).data]
    else parts
  let parts := if truthy styleImageBase64 then
      parts ++ [Part.text styleImageLabel,
        Part.inlineData (getMimeTypeAndData (styleImageBase64.getD "")).mimeType
          (getMimeTypeAndData (styleImageBase64.getD "")).data]
    else parts
  let systemInstruction := if truthy previousPrompt && truthy editSuggestion then
      systemInstruction ++ enhancementModeBlock
    else systemInstruction
  let textContent := if truthy previousPrompt && truthy editSuggestion then
      textContent ++ "\nPREVIOUS PROMPT: \"" ++ previousPrompt.getD "" ++
        "\"\nEDIT SUGGESTION: \"" ++ editSuggestion.getD "" ++ "\""
    else textContent
  let parts := parts ++ [Part.text textContent]
  { parts := parts, systemInstruction := systemInstruction }

/-- Embeds the parts assembly of `generateImage` in the unnamed service
module (lines 145-153): `[{ text: prompt }]`, then `unshift` of the
subject image when the optional base64 string is truthy. -/
def generateImageParts (prompt : String) (rawImageBase64 : Option String) :
    List Part :=
  let parts : List Part := [Part.text prompt]
  if truthy rawImageBase64 then
    Part.inlineData (getMimeTypeAndData (rawImageBase64.getD "")).mimeType
      (getMimeTypeAndData (rawImageBase64.getD "")).data :: parts
  else parts

/-- A JavaScript thrown value: either a proper `Error` object carrying
a message, or any other (non-`Error`) value. -/
inductive Thrown where
  | errObj (message : String)
  | nonErr
  deriving DecidableEq

/-- The fixed quota/billing remediation message thrown by
`handleApiError`. -/
def quotaMessage : String :=
  "API Quota Exceeded or Billing not enabled. Please ensure the Google Cloud project for your API key has billing enabled. For more info, see: ai.google.dev/gemini-api/docs/billing"

/-- The fixed invalid-credential message thrown by `handleApiError`. -/
def invalidKeyMessage : String :=
  "Invalid API Key. Please check your key and try again."

/-- The generic message thrown by `handleApiError` for non-`Error`
values. -/
def unknownMessage : String := "An unknown error occurred."

/-- Embeds `handleApiError` (`src/unnamed/part_000`, lines 9-30): the
function always throws; the value it throws is returned here.
Matching is case-insensitive substring search on the message. -/
def handleApiError : Thrown → Thrown
  | Thrown.errObj message =>
    let m := jsToLowerCase message
    if containsSub m "quota" || containsSub m "resource_exhausted" ||
        containsSub m "billing" then
      Thrown.errObj quotaMessage
    else if containsSub m "api key not valid" then
      Thrown.errObj invalidKeyMessage
    else
      Thrown.errObj message
  | Thrown.nonErr => Thrown.errObj unknownMessage

/-- Embeds `validateApiKey` (`src/unnamed/part_000`, lines 37-53).  The
outcome of the single probe request is abstracted as an `Except`
parameter; the second component of the result counts the network calls
issued.  The `try`/`catch` swallows every failure into `false`. -/
def validateApiKey (apiKey : String) (probe : Except Thrown Unit) :
    Bool × Nat :=
  if apiKey.isEmpty then (false, 0)
  else
    match probe with
    | Except.ok _ => (true, 1)
    | Except.error _ => (false, 1)

/-- A response content part as inspected by `generateImage`: a text
part, or a part with `inlineData` carrying a mime type and payload. -/
inductive RespPart where
  | textPart (s : String)
  | dataPart (mimeType : String) (data : String)
  deriving DecidableEq

/-- The message of the error thrown when no image part is found. -/
def noImageDataMessage : String :=
  "No image data found in the AI\x27s response."

/-- Does this response part carry an image payload?  Mirrors the loop
guard `part.inlineData && part.inlineData.mimeType.startsWith('image/')`. -/
def isImagePart : RespPart → Bool
  | RespPart.textPart _ => false
  | RespPart.dataPart mimeType _ => jsStartsWith mimeType "image/"

/-- Embeds the response scan of `generateImage`
(`src/unnamed/part_000`, lines 163-169): walk the first candidate's
parts in order, return the data of the first image-tagged part, and
throw the no-image-data error if the loop finishes without one. -/
def extractImageData : List RespPart → Except String String
  | [] => Except.error noImageDataMessage
  | RespPart.textPart _ :: rest => extractImageData rest
  | RespPart.dataPart mimeType data :: rest =>
    if jsStartsWith mimeType "image/" then Except.ok data
    else extractImageData rest

/-- The network calls `processGeneration` can issue, in order. -/
inductive NetCall where
  | analyze
  | genImage
  deriving DecidableEq

/-- The observable outcome of one `processGeneration` round. -/
inductive FlowOutcome where
  | errored (msg : String)
  | succeeded (prompt imageDataUri : String)
  deriving DecidableEq

/-- Error message set when no validated key is available. -/
def keyMissingMessage : String :=
  "Please provide and validate your Gemini API key to start."

/-- Precondition error message set when all three inputs are absent. -/
def noInputsMessage : String :=
  "Please provide a raw image, a style image, or a text description to start."

/-- The message shown for an error caught during a generation round:
`err instanceof Error ? err.message : 'An unknown error occurred.'`. -/
def caughtMessage : Thrown → String
  | Thrown.errObj m => m
  | Thrown.nonErr => "An unknown error occurred."

/-- Embeds the control flow of `processGeneration` (`src/App.tsx`,
lines 115-148).  The outcomes of the two network calls are abstracted
as `Except` parameters; the returned list records which network calls
were issued, in order.  UI state updates are collapsed into the
`FlowOutcome`. -/
def processGeneration (isKeyValid : Bool)
    (rawImage styleImage : Option String) (userPrompt : String)
    (analyzeOutcome : Except Thrown String)
    (imageOutcome : Except Thrown String) :
    FlowOutcome × List NetCall :=
  if !isKeyValid then (FlowOutcome.errored keyMissingMessage, [])
  else if !truthy rawImage && !truthy styleImage && userPrompt.isEmpty then
    (FlowOutcome.errored noInputsMessage, [])
  else
    match analyzeOutcome with
    | Except.error e =>
      (FlowOutcome.errored ("Failed during image creation: " ++ caughtMessage e),
        [NetCall.analyze])
    | Except.ok newPrompt =>
      match imageOutcome with
      | Except.error e =>
        (FlowOutcome.errored
            ("Failed during image creation: " ++ caughtMessage e),
          [NetCall.analyze, NetCall.genImage])
      | Except.ok imageB64 =>
        (FlowOutcome.succeeded newPrompt ("data:image/png;base64," ++ imageB64),
          [NetCall.analyze, NetCall.genImage])

/-- Embeds `getMimeTypeAndData` as defined a second time in
`src/services/geminiService.ts` (lines 5-9); the body is a verbatim
duplicate of the unnamed module's copy. -/
def getMimeTypeAndDataSvc (base64 : String) : MimeData :=
  let pieces := jsSplitChar ',' base64.toList
  let meta := pieces.headD []
  let data := pieces[1]?
  let mimeType := (jsSplitChar ':' ((jsSplitChar ';' meta).headD []))[1]?
  { mimeType := mimeType.map List.asString, data := data.map List.asString }

/-- The fixed system instruction as written in
`src/services/geminiService.ts` (line 30). -/
def baseSystemInstructionSvc : String :=
  "You are a master prompt creator for an AI image generator. Your task is to synthesize user inputs into a single, detailed, and evocative prompt. The user might write in simple or imperfect English; your goal is to understand their core intent.\n\n**Rules:**\n1.  **Analyze all inputs:** Consider the raw image (the subject), the style image (the aesthetic reference), and the user\x27s text prompt (if provided).\n2.  **If no text is provided:** Infer the goal from the combination of the raw and style images. For example, if the raw image is a person and the style image is a watercolor painting, the goal is likely to render the person in a watercolor style.\n3.  **Combine concepts:** Merge the elements into a cohesive vision. The raw image is the primary subject to be modified. The style image dictates the artistic direction (e.g., mood, color, texture).\n4.  **Output only the prompt:** Do not add any extra explanations, greetings, or conversational text. Your entire output should be the final, usable prompt."

/-- The enhancement-mode block as written in
`src/services/geminiService.ts` (lines 56-61). -/
def enhancementModeBlockSvc : String :=
  "\n**Enhancement Mode:**\nYou are now refining a previous attempt.\n- The user was shown an image generated from the \x27PREVIOUS PROMPT\x27.\n- They have provided an \x27EDIT SUGGESTION\x27 to improve it.\n- Your task is to intelligently modify the \x27PREVIOUS PROMPT\x27 based on the \x27EDIT SUGGESTION\x27 to create a new, superior prompt. Do not just tack on the suggestion; integrate it thoughtfully. Refer back to the original images and goal if necessary."

/-- Embeds the request assembly of `analyzeIdea` in
`src/services/geminiService.ts` (lines 21-75). -/
def analyzeIdeaRequestSvc (rawImageBase64 styleImageBase64 : Option String)
    (userPrompt : String) (previousPrompt editSuggestion : Option String) :
    PromptRequest :=
  let systemInstruction := baseSystemInstructionSvc
  let parts : List Part := []
  let textContent := "User\x27s goal: \"" ++ userPrompt ++ "\"\n"
  let parts := if truthy rawImageBase64 then
      parts ++ [Part.text "This is the RAW IMAGE (the subject):",
        Part.inlineData
          (getMimeTypeAndDataSvc (rawImageBase64.getD "")).mimeType
          (getMimeTypeAndDataSvc (rawImageBase64.getD "")).data]
    else parts
  let parts := if truthy styleImageBase64 then
      parts ++
        [Part.text "This is the STYLE IMAGE (the reference for aesthetics):",
        Part.inlineData
          (getMimeTypeAndDataSvc (styleImageBase64.getD "")).mimeType
          (getMimeTypeAndDataSvc (styleImageBase64.getD "")).data]
    else parts
  let systemInstruction := if truthy previousPrompt && truthy editSuggestion then
      systemInstruction ++ enhancementModeBlockSvc
    else systemInstruction
  let textContent := if truthy previousPrompt && truthy editSuggestion then
      textContent ++ "\nPREVIOUS PROMPT: \"" ++ previousPrompt.getD "" ++
        "\"\nEDIT SUGGESTION: \"" ++ editSuggestion.getD "" ++ "\""
    else textContent
  let parts := parts ++ [Part.text textContent]
  { parts := parts, systemInstruction := systemInstruction }

/-- Embeds the parts assembly of `generateImage` in
`src/services/geminiService.ts` (lines 87-98). -/
def generateImagePartsSvc (prompt : String)
    (rawImageBase64 : Option String) : List Part :=
  let parts : List Part := [Part.text prompt]
  if truthy rawImageBase64 then
    Part.inlineData (getMimeTypeAndDataSvc (rawImageBase64.getD "")).mimeType
      (getMimeTypeAndDataSvc (rawImageBase64.getD "")).data :: parts
  else parts

theorem beginsWith_append_self (a b : List Char) :
    beginsWith a (a ++ b) = true := by
  induction a with
  | nil => rfl
  | cons c cs ih => simp [beginsWith, ih]

theorem containsSubAux_append (sub l₁ l₂ : List Char) :
    containsSubAux sub (l₁ ++ (sub ++ l₂)) = true := by
  induction l₁ with
  | nil =>
    cases h : sub ++ l₂ with
    | nil =>
      rcases List.append_eq_nil.mp h with ⟨h₁, _⟩
      simp [containsSubAux, h, h₁]
    | cons c t =>
      simp only [List.nil_append, h, containsSubAux]
      rw [← h, beginsWith_append_self]
      simp
  | cons c cs ih =>
    simp only [List.cons_append, containsSubAux, List.append_eq, ih,
      Bool.or_true]

theorem string_toList_append (a b : String) :
    (a ++ b).toList = a.toList ++ b.toList := by
  simp [String.toList]

theorem containsSub_append (a b c : String) :
    containsSub (a ++ b ++ c) b = true := by
  unfold containsSub
  rw [string_toList_append, string_toList_append, List.append_assoc]
  exact containsSubAux_append _ _ _

theorem jsSplitChar_not_mem (sep : Char) (a : List Char) (h : sep ∉ a) :
    jsSplitChar sep a = [a] := by
  induction a with
  | nil => rfl
  | cons c cs ih =>
    have hc : c ≠ sep := fun he => h (he ▸ List.mem_cons_self c cs)
    have hcs : sep ∉ cs := fun hm => h (List.mem_cons_of_mem c hm)
    simp [jsSplitChar, hc, ih hcs]

theorem jsSplitChar_append (sep : Char) (a b : List Char) (h : sep ∉ a) :
    jsSplitChar sep (a ++ sep :: b) = a :: jsSplitChar sep b := by
  induction a with
  | nil => simp [jsSplitChar]
  | cons c cs ih =>
    have hc : c ≠ sep := fun he => h (he ▸ List.mem_cons_self c cs)
    have hcs : sep ∉ cs := fun hm => h (List.mem_cons_of_mem c hm)
    simp only [List.cons_append, jsSplitChar, if_neg hc, List.append_eq,
      ih hcs]

theorem string_append_assoc (a b c : String) : a ++ b ++ c = a ++ (b ++ c) := by
  apply String.ext
  simp

theorem containsSub_split (s a b c : String) (h : s = a ++ b ++ c) :
    containsSub s b = true := by
  rw [h]
  exact containsSub_append a b c

theorem asString_toList (s : String) : List.asString s.toList = s := rfl

/-- C3: every raised error is classified by case-insensitive substring
matching on its message: quota/resource_exhausted/billing messages are
re-raised with the fixed billing remediation message, "api key not
valid" messages with the fixed invalid-key message, other recognized
errors are re-raised unchanged, and non-error thrown values become the
generic unknown error. -/
theorem handleApiError_classifies (m : String) :
    ((containsSub (jsToLowerCase m) "quota" || containsSub (jsToLowerCase m) "resource_exhausted" ||
        containsSub (jsToLowerCase m) "billing") = true →
      handleApiError (Thrown.errObj m) = Thrown.errObj quotaMessage)
    ∧ ((containsSub (jsToLowerCase m) "quota" || containsSub (jsToLowerCase m) "resource_exhausted" ||
        containsSub (jsToLowerCase m) "billing") = false →
        containsSub (jsToLowerCase m) "api key not valid" = true →
      handleApiError (Thrown.errObj m) = Thrown.errObj invalidKeyMessage)
    ∧ ((containsSub (jsToLowerCase m) "quota" || containsSub (jsToLowerCase m) "resource_exhausted" ||
        containsSub (jsToLowerCase m) "billing") = false →
        containsSub (jsToLowerCase m) "api key not valid" = false →
      handleApiError (Thrown.errObj m) = Thrown.errObj m)
    ∧ handleApiError Thrown.nonErr = Thrown.errObj unknownMessage := by
  refine ⟨?_, ?_, ?_, rfl⟩
  · intro h
    simp [handleApiError, h]
  · intro h hk
    simp [handleApiError, h, hk]
  · intro h hk
    simp [handleApiError, h, hk]

/-- Witness for C3 at a concrete quota-family message. -/
theorem handleApiError_classifies_witness :
    handleApiError (Thrown.errObj "RESOURCE_EXHAUSTED: try later") =
      Thrown.errObj quotaMessage :=
  (handleApiError_classifies "RESOURCE_EXHAUSTED: try later").1 (by decide)

/-- C9: when a message matches both the quota-family substrings and
"api key not valid", the quota/billing branch wins because it is
tested first. -/
theorem handleApiError_quota_precedence (m : String)
    (hq : (containsSub (jsToLowerCase m) "quota" ||
        containsSub (jsToLowerCase m) "resource_exhausted" ||
        containsSub (jsToLowerCase m) "billing") = true)
    (_hk : containsSub (jsToLowerCase m) "api key not valid" = true) :
    handleApiError (Thrown.errObj m) = Thrown.errObj quotaMessage := by
  simp [handleApiError, hq]

/-- Witness for C9 at a message carrying both trigger families. -/
theorem handleApiError_quota_precedence_witness :
    handleApiError (Thrown.errObj "quota hit: API key not valid") =
      Thrown.errObj quotaMessage :=
  handleApiError_quota_precedence "quota hit: API key not valid"
    (by decide) (by decide)

/-- C7: an empty credential yields `false` with zero network calls; a
non-empty credential issues exactly one probe and returns `true` iff
the probe succeeds; every probe failure normalizes to the return value
`false` (the function is total — no exception escapes). -/
theorem validateApiKey_spec (key : String) (probe : Except Thrown Unit) :
    (key.isEmpty = true → validateApiKey key probe = (false, 0))
    ∧ (key.isEmpty = false → (validateApiKey key probe).2 = 1
        ∧ ((validateApiKey key probe).1 = true ↔ ∃ u, probe = Except.ok u))
    ∧ (∀ e, probe = Except.error e → (validateApiKey key probe).1 = false) := by
  refine ⟨?_, ?_, ?_⟩
  · intro h
    simp [validateApiKey, h]
  · intro h
    cases probe <;> simp [validateApiKey, h]
  · intro e he
    subst he
    by_cases h : key.isEmpty <;> simp [validateApiKey, h]

/-- Witness for C7: empty key short-circuits even a successful probe. -/
theorem validateApiKey_spec_witness :
    validateApiKey "" (Except.ok ()) = (false, 0) :=
  (validateApiKey_spec "" (Except.ok ())).1 (by decide)

/-- C2: the image synthesizer returns the data of the first
image-tagged part of the candidate's parts list, skipping earlier
non-image parts, and fails with the no-image-data error when no part
anywhere is image-tagged. -/
theorem extractImageData_first_image (parts : List RespPart) :
    (∀ mt d, parts.find? isImagePart = some (RespPart.dataPart mt d) →
      extractImageData parts = Except.ok d)
    ∧ (parts.find? isImagePart = none →
      extractImageData parts = Except.error noImageDataMessage) := by
  induction parts with
  | nil =>
    refine ⟨?_, fun _ => rfl⟩
    intro mt d h
    simp at h
  | cons p rest ih =>
    cases p with
    | textPart s =>
      refine ⟨?_, ?_⟩
      · intro mt d h
        rw [List.find?_cons_of_neg _ (by simp [isImagePart])] at h
        simpa [extractImageData] using ih.1 mt d h
      · intro h
        rw [List.find?_cons_of_neg _ (by simp [isImagePart])] at h
        simpa [extractImageData] using ih.2 h
    | dataPart mt0 d0 =>
      by_cases himg : jsStartsWith mt0 "image/" = true
      · refine ⟨?_, ?_⟩
        · intro mt d h
          rw [List.find?_cons_of_pos _ (by simp [isImagePart, himg])] at h
          cases h
          simp [extractImageData, himg]
        · intro h
          rw [List.find?_cons_of_pos _ (by simp [isImagePart, himg])] at h
          cases h
      · have hneg : isImagePart (RespPart.dataPart mt0 d0) = false := by
          simpa [isImagePart] using himg
        refine ⟨?_, ?_⟩
        · intro mt d h
          rw [List.find?_cons_of_neg _ (by simp [hneg])] at h
          have := ih.1 mt d h
          simpa [extractImageData, himg] using this
        · intro h
          rw [List.find?_cons_of_neg _ (by simp [hneg])] at h
          have := ih.2 h
          simpa [extractImageData, himg] using this

/-- Witness for C2: a leading text part is skipped and the first
image part's data is returned. -/
theorem extractImageData_first_image_witness :
    extractImageData
        [RespPart.textPart "commentary",
          RespPart.dataPart "image/png" "AAA",
          RespPart.dataPart "image/jpeg" "BBB"] =
      Except.ok "AAA" :=
  (extractImageData_first_image
      [RespPart.textPart "commentary",
        RespPart.dataPart "image/png" "AAA",
        RespPart.dataPart "image/jpeg" "BBB"]).1
    "image/png" "AAA" (by decide)

/-- C5: `generateImage` places the subject image part before the
prompt text part whenever a subject is present (truthy), and builds a
single text part carrying the prompt when it is absent. -/
theorem generateImageParts_order (prompt : String) (raw : Option String) :
    (truthy raw = true →
      generateImageParts prompt raw =
        [Part.inlineData (getMimeTypeAndData (raw.getD "")).mimeType
            (getMimeTypeAndData (raw.getD "")).data,
          Part.text prompt])
    ∧ (truthy raw = false →
      generateImageParts prompt raw = [Part.text prompt]) := by
  constructor <;> intro h <;> simp [generateImageParts, h]

/-- Witness for C5 at a concrete subject asset. -/
theorem generateImageParts_order_witness :
    generateImageParts "a watercolor cat" (some "data:image/png;base64,AAA") =
      [Part.inlineData
          (getMimeTypeAndData "data:image/png;base64,AAA").mimeType
          (getMimeTypeAndData "data:image/png;base64,AAA").data,
        Part.text "a watercolor cat"] :=
  (generateImageParts_order "a watercolor cat"
      (some "data:image/png;base64,AAA")).1 (by decide)

/-- C8: when subject, style and goal text are all absent the round
fails fast with the precondition error and issues no network call;
and whenever the prompt-synthesis call fails, the image call is never
issued in that round. -/
theorem processGeneration_guard (key : Bool) (raw style : Option String)
    (up : String) (aOut iOut : Except Thrown String) :
    (truthy raw = false → truthy style = false → up.isEmpty = true →
      (processGeneration key raw style up aOut iOut).2 = []
      ∧ (key = true →
        (processGeneration key raw style up aOut iOut).1 =
          FlowOutcome.errored noInputsMessage))
    ∧ (∀ e, aOut = Except.error e →
      NetCall.genImage ∉ (processGeneration key raw style up aOut iOut).2) := by
  constructor
  · intro h1 h2 h3
    cases key <;> simp [processGeneration, h1, h2, h3]
  · intro e he
    subst he
    cases key with
    | false => simp [processGeneration]
    | true =>
      by_cases h : (!truthy raw && !truthy style && up.isEmpty) = true
      · simp [processGeneration, h]
      · simp only [Bool.not_eq_true] at h
        simp [processGeneration, h]

/-- Witness for C8: no inputs at all gives the precondition error and
an empty call log. -/
theorem processGeneration_guard_witness :
    (processGeneration true none none "" (Except.ok "p") (Except.ok "i")).2 = []
    ∧ (processGeneration true none none "" (Except.ok "p")
        (Except.ok "i")).1 = FlowOutcome.errored noInputsMessage := by
  have h := (processGeneration_guard true none none ""
      (Except.ok "p") (Except.ok "i")).1 (by decide) (by decide) (by decide)
  exact ⟨h.1, h.2 rfl⟩

/-- C10: the two coexisting service implementations build identical
prompt-synthesis requests (parts and system instruction) and identical
image-generation parts sequences on identical inputs. -/
theorem service_impls_equivalent :
    (∀ raw style up prev edit,
      analyzeIdeaRequest raw style up prev edit =
        analyzeIdeaRequestSvc raw style up prev edit)
    ∧ ∀ prompt subj,
      generateImageParts prompt subj = generateImagePartsSvc prompt subj := by
  constructor
  · intro raw style up prev edit
    rfl
  · intro prompt subj
    rfl

/-- C4 (amended): on a data URI `data:<mt>;base64,<d>` whose media
type contains none of the separator characters and whose payload
contains no comma, the decoder returns exactly the pair `(mt, d)`. -/
theorem getMimeTypeAndData_wellformed (mt d : String)
    (h1 : ';' ∉ mt.toList) (h2 : ':' ∉ mt.toList) (h3 : ',' ∉ mt.toList)
    (h4 : ',' ∉ d.toList) :
    getMimeTypeAndData ("data:" ++ mt ++ ";base64," ++ d) =
      { mimeType := some mt, data := some d } := by
  have hsplit : ("data:" ++ mt ++ ";base64," ++ d).toList =
      ("data:".toList ++ mt.toList ++ [';', 'b', 'a', 's', 'e', '6', '4']) ++
        ',' :: d.toList := by
    rw [string_toList_append, string_toList_append, string_toList_append]
    have hb : (";base64,").toList = [';', 'b', 'a', 's', 'e', '6', '4', ','] := by
      decide
    rw [hb]
    simp
  have hmemA : ',' ∉
      "data:".toList ++ mt.toList ++ [';', 'b', 'a', 's', 'e', '6', '4'] := by
    intro hmem
    rcases List.mem_append.mp hmem with hmem | hmem
    · rcases List.mem_append.mp hmem with hmem | hmem
      · revert hmem
        decide
      · exact h3 hmem
    · revert hmem
      decide
  have hcomma : jsSplitChar ',' (("data:" ++ mt ++ ";base64," ++ d).toList) =
      ("data:".toList ++ mt.toList ++ [';', 'b', 'a', 's', 'e', '6', '4']) ::
        jsSplitChar ',' d.toList := by
    rw [hsplit]
    exact jsSplitChar_append ',' _ _ hmemA
  have hd : jsSplitChar ',' d.toList = [d.toList] := jsSplitChar_not_mem _ _ h4
  have hA : "data:".toList ++ mt.toList ++ [';', 'b', 'a', 's', 'e', '6', '4'] =
      ("data:".toList ++ mt.toList) ++
        ';' :: ['b', 'a', 's', 'e', '6', '4'] := by
    simp
  have hmemB : ';' ∉ "data:".toList ++ mt.toList := by
    intro hmem
    rcases List.mem_append.mp hmem with hmem | hmem
    · revert hmem
      decide
    · exact h1 hmem
  have hsemi : jsSplitChar ';'
      ("data:".toList ++ mt.toList ++ [';', 'b', 'a', 's', 'e', '6', '4']) =
      ("data:".toList ++ mt.toList) ::
        jsSplitChar ';' ['b', 'a', 's', 'e', '6', '4'] := by
    rw [hA]
    exact jsSplitChar_append ';' _ _ hmemB
  have hB : "data:".toList ++ mt.toList = ['d', 'a', 't', 'a'] ++ ':' :: mt.toList := by
    have : "data:".toList = ['d', 'a', 't', 'a', ':'] := by decide
    rw [this]
    simp
  have hcolonpre : (':' : Char) ∉ ['d', 'a', 't', 'a'] := by decide
  have hcolon : jsSplitChar ':' ("data:".toList ++ mt.toList) =
      ['d', 'a', 't', 'a'] :: jsSplitChar ':' mt.toList := by
    rw [hB]
    exact jsSplitChar_append ':' _ _ hcolonpre
  have hmt : jsSplitChar ':' mt.toList = [mt.toList] := jsSplitChar_not_mem _ _ h2
  unfold getMimeTypeAndData
  rw [hcomma, hd]
  simp only [List.headD_cons, List.getElem?_cons_succ, List.getElem?_cons_zero]
  rw [hsemi]
  simp only [List.headD_cons]
  rw [hcolon, hmt]
  simp only [List.getElem?_cons_succ, List.getElem?_cons_zero]
  rfl

/-- Witness for C4's amended positive half at a concrete data URI. -/
theorem getMimeTypeAndData_wellformed_witness :
    getMimeTypeAndData ("data:" ++ "image/png" ++ ";base64," ++ "AAA") =
      { mimeType := some "image/png", data := some "AAA" } :=
  getMimeTypeAndData_wellformed "image/png" "AAA"
    (by decide) (by decide) (by decide) (by decide)

/-- C4 counterexample: the claim says an input missing the comma or the
colon separator raises a malformed-input error, but `getMimeTypeAndData`
never throws — on an input with no separators at all it returns
normally with both fields `undefined`, and on an input missing only the
colon it returns normally with an `undefined` media type and the
payload extracted. -/
theorem getMimeTypeAndData_malformed_returns :
    getMimeTypeAndData "noseparators" =
      { mimeType := none, data := none }
    ∧ getMimeTypeAndData "nocolon;base64,payload" =
      { mimeType := none, data := some "payload" } := by
  constructor <;> decide

theorem string_append_empty (s : String) : s ++ "" = s := by
  apply String.ext
  simp

theorem truthy_none : truthy none = false := rfl

set_option maxRecDepth 10000

/-- C1: enhancement mode is gated on the joint presence (truthiness)
of both optional values: when both `previousPrompt` and
`editSuggestion` are non-empty the trailing text part contains their
literal values and the system instruction is the base instruction plus
the enhancement block; when at most one is supplied the whole request
is identical to the initial-synthesis request, whose system
instruction does not contain the enhancement-mode block. -/
theorem analyzeIdea_enhancement_gate (raw style : Option String)
    (up : String) (prev edit : Option String) :
    ((truthy prev && truthy edit) = true →
      (analyzeIdeaRequest raw style up prev edit).systemInstruction =
          baseSystemInstruction ++ enhancementModeBlock
      ∧ ∃ t, (analyzeIdeaRequest raw style up prev edit).parts.getLast? =
            some (Part.text t)
          ∧ containsSub t
              ("PREVIOUS PROMPT: \"" ++ prev.getD "" ++ "\"") = true
          ∧ containsSub t
              ("EDIT SUGGESTION: \"" ++ edit.getD "" ++ "\"") = true)
    ∧ ((truthy prev && truthy edit) = false →
      analyzeIdeaRequest raw style up prev edit =
        analyzeIdeaRequest raw style up none none)
    ∧ containsSub
        (analyzeIdeaRequest raw style up none none).systemInstruction
        "**Enhancement Mode:**" = false := by
  refine ⟨?_, ?_, ?_⟩
  · intro h
    refine ⟨by simp [analyzeIdeaRequest, h], ?_⟩
    refine ⟨("User\x27s goal: \"" ++ up ++ "\"\n") ++ "\nPREVIOUS PROMPT: \"" ++
        prev.getD "" ++ "\"\nEDIT SUGGESTION: \"" ++ edit.getD "" ++ "\"",
      ?_, ?_, ?_⟩
    · simp [analyzeIdeaRequest, h, List.getLast?_concat]
    · refine containsSub_split _
        (("User\x27s goal: \"" ++ up ++ "\"\n") ++ "\n") _
        ("\nEDIT SUGGESTION: \"" ++ edit.getD "" ++ "\"") ?_
      apply String.ext
      simp
    · refine containsSub_split _
        ((("User\x27s goal: \"" ++ up ++ "\"\n") ++ "\n" ++
          ("PREVIOUS PROMPT: \"" ++ prev.getD "" ++ "\"")) ++ "\n") _ "" ?_
      apply String.ext
      simp
  · intro h
    simp [analyzeIdeaRequest, h, truthy_none]
  · have hbase : (analyzeIdeaRequest raw style up none none).systemInstruction =
        baseSystemInstruction := by
      simp [analyzeIdeaRequest, truthy_none]
    rw [hbase]
    decide

/-- Witness for C1: with both values supplied, the system instruction
carries the enhancement block. -/
theorem analyzeIdea_enhancement_gate_witness :
    (analyzeIdeaRequest none none "goal" (some "a red car")
        (some "make it blue")).systemInstruction =
      baseSystemInstruction ++ enhancementModeBlock :=
  ((analyzeIdea_enhancement_gate none none "goal" (some "a red car")
      (some "make it blue")).1 (by decide)).1

/-- C6: for every combination of optional inputs, the prompt-synthesis
parts sequence ends with a text part containing the user's goal, the
subject image (when present) sits immediately after its subject label,
the style image (when present) immediately after its style label, and
every image part in the sequence is immediately preceded by one of the
two role labels. -/
theorem analyzeIdea_parts_labels (raw style : Option String) (up : String)
    (prev edit : Option String) :
    (∃ t, (analyzeIdeaRequest raw style up prev edit).parts.getLast? =
        some (Part.text t) ∧ containsSub t up = true)
    ∧ (truthy raw = true → ∃ i,
        (analyzeIdeaRequest raw style up prev edit).parts[i]? =
          some (Part.text rawImageLabel)
        ∧ (analyzeIdeaRequest raw style up prev edit).parts[i + 1]? =
          some (Part.inlineData (getMimeTypeAndData (raw.getD "")).mimeType
            (getMimeTypeAndData (raw.getD "")).data))
    ∧ (truthy style = true → ∃ i,
        (analyzeIdeaRequest raw style up prev edit).parts[i]? =
          some (Part.text styleImageLabel)
        ∧ (analyzeIdeaRequest raw style up prev edit).parts[i + 1]? =
          some (Part.inlineData (getMimeTypeAndData (style.getD "")).mimeType
            (getMimeTypeAndData (style.getD "")).data))
    ∧ (∀ i mt d, (analyzeIdeaRequest raw style up prev edit).parts[i]? =
          some (Part.inlineData mt d) →
        1 ≤ i ∧ ∃ l,
          (analyzeIdeaRequest raw style up prev edit).parts[i - 1]? =
            some (Part.text l)
          ∧ (l = rawImageLabel ∨ l = styleImageLabel)) := by
  refine ⟨?_, ?_, ?_, ?_⟩
  · cases he : (truthy prev && truthy edit) with
    | false =>
      refine ⟨"User\x27s goal: \"" ++ up ++ "\"\n", ?_, ?_⟩
      · simp [analyzeIdeaRequest, he, List.getLast?_concat]
      · exact containsSub_split _ "User\x27s goal: \"" _ "\"\n" rfl
    | true =>
      refine ⟨("User\x27s goal: \"" ++ up ++ "\"\n") ++ "\nPREVIOUS PROMPT: \"" ++
          prev.getD "" ++ "\"\nEDIT SUGGESTION: \"" ++ edit.getD "" ++ "\"",
        ?_, ?_⟩
      · simp [analyzeIdeaRequest, he, List.getLast?_concat]
      · refine containsSub_split _ "User\x27s goal: \"" _
          ("\"\n" ++ ("\nPREVIOUS PROMPT: \"" ++ (prev.getD "" ++
            ("\"\nEDIT SUGGESTION: \"" ++ (edit.getD "" ++ "\""))))) ?_
        apply String.ext
        simp
  · intro hr
    cases hs : truthy style with
    | false => refine ⟨0, ?_, ?_⟩ <;> simp [analyzeIdeaRequest, hr, hs]
    | true => refine ⟨0, ?_, ?_⟩ <;> simp [analyzeIdeaRequest, hr, hs]
  · intro hs
    cases hr : truthy raw with
    | false => refine ⟨0, ?_, ?_⟩ <;> simp [analyzeIdeaRequest, hr, hs]
    | true => refine ⟨2, ?_, ?_⟩ <;> simp [analyzeIdeaRequest, hr, hs]
  · intro i mt d h
    cases hr : truthy raw with
    | true =>
      cases hs : truthy style with
      | true =>
        rcases i with _ | _ | _ | _ | _ | n
        · simp [analyzeIdeaRequest, hr, hs] at h
        · refine ⟨by omega, rawImageLabel, ?_, Or.inl rfl⟩
          simp [analyzeIdeaRequest, hr, hs]
        · simp [analyzeIdeaRequest, hr, hs] at h
        · refine ⟨by omega, styleImageLabel, ?_, Or.inr rfl⟩
          simp [analyzeIdeaRequest, hr, hs]
        · simp [analyzeIdeaRequest, hr, hs] at h
        · simp [analyzeIdeaRequest, hr, hs] at h
      | false =>
        rcases i with _ | _ | _ | n
        · simp [analyzeIdeaRequest, hr, hs] at h
        · refine ⟨by omega, rawImageLabel, ?_, Or.inl rfl⟩
          simp [analyzeIdeaRequest, hr, hs]
        · simp [analyzeIdeaRequest, hr, hs] at h
        · simp [analyzeIdeaRequest, hr, hs] at h
    | false =>
      cases hs : truthy style with
      | true =>
        rcases i with _ | _ | _ | n
        · simp [analyzeIdeaRequest, hr, hs] at h
        · refine ⟨by omega, styleImageLabel, ?_, Or.inr rfl⟩
          simp [analyzeIdeaRequest, hr, hs]
        · simp [analyzeIdeaRequest, hr, hs] at h
        · simp [analyzeIdeaRequest, hr, hs] at h
      | false =>
        rcases i with _ | n
        · simp [analyzeIdeaRequest, hr, hs] at h
        · simp [analyzeIdeaRequest, hr, hs] at h

/-- Witness for C6: with a concrete subject asset present, the subject
label text part immediately precedes the subject image part. -/
theorem analyzeIdea_parts_labels_witness :
    ∃ i, (analyzeIdeaRequest (some "data:image/png;base64,AAA") none "goal"
        none none).parts[i]? = some (Part.text rawImageLabel)
      ∧ (analyzeIdeaRequest (some "data:image/png;base64,AAA") none "goal"
        none none).parts[i + 1]? =
        some (Part.inlineData
          (getMimeTypeAndData ((some "data:image/png;base64,AAA").getD "")).mimeType
          (getMimeTypeAndData ((some "data:image/png;base64,AAA").getD "")).data) :=
  (analyzeIdea_parts_labels (some "data:image/png;base64,AAA") none "goal"
      none none).2.1 (by decide)

end AIStylus
